import Mathlib

/-!
Verification of the File-Renamer repository (`rename_images.py`, `gui_rename.py`).

Shallow embedding conventions:
* A directory's on-disk state is its listing, a `List String` of basenames in
  `os.listdir` enumeration order; `os.path.exists(os.path.join(dir, name))`
  becomes `name ∈ dir`.  All files handled by one operation live in a single
  directory (which is how both programs use their helpers), so paths are
  represented by their basenames; `os.path.splitext` applied to a joined path
  yields the same extension as applied to the basename, since basenames
  contain no path separator.
* Python `int` is `Int`, Python `str` is `String` (a `List Char` of code
  points, matching Python's sequence-of-code-points model).
* Functions that Python implements with unbounded `while` loops or
  non-structural recursion are embedded with an explicit fuel argument large
  enough to be unreachable (proved where a theorem needs it), keeping every
  definition kernel-computable.
* `str.format` is embedded by `pyFormat`, an interpreter of the
  format-string sublanguage these programs use (literal text, `{{`/`}}`
  escapes, and a `{n...}` field with decimal integer presentation, optional
  width and zero fill).  Format specs outside this sublanguage are treated as
  rendering failures, as are Python-level format errors.
-/

namespace FileRenamer

/-- Numeric value of a decimal digit character. -/
def digitVal (c : Char) : Nat := c.toNat - 48

/-- Decimal digit characters of a natural number, most significant first;
embedding of Python `str(n)` for `n ≥ 0`.  `fuel` is structural fuel: any
`fuel > n` gives the true digit string. -/
def decDigitsAux : Nat → Nat → List Char
  | 0, _ => []
  | fuel + 1, n =>
    if n < 10 then [Nat.digitChar n]
    else decDigitsAux fuel (n / 10) ++ [Nat.digitChar (n % 10)]

/-- Decimal rendering of a natural number (Python `str(n)`, `n ≥ 0`). -/
def natToDec (n : Nat) : String := ⟨decDigitsAux (n + 1) n⟩

/-- Value of a list of decimal digit characters (Python `int` on a digit
string). -/
def decToNatL (l : List Char) : Nat := l.foldl (fun a c => a * 10 + digitVal c) 0

/-- Python `str(i)` for a Python `int`. -/
def pyStr (i : Int) : String :=
  if i < 0 then "-" ++ natToDec (-i).toNat else natToDec i.toNat

/-- Python `str.zfill(w)`: left zero-fill to minimum width `w`, keeping a
leading sign in place. -/
def zfill (w : Nat) (s : String) : String :=
  match s.data with
  | [] => ⟨List.replicate w '0'⟩
  | c :: rest =>
    if c = '-' ∨ c = '+' then ⟨c :: (List.replicate (w - s.length) '0' ++ rest)⟩
    else ⟨List.replicate (w - s.length) '0' ++ s.data⟩

/-- Right-align in a field of width `w` with space fill (Python's default
alignment for numeric format specs without a `0` flag). -/
def spacePad (w : Nat) (s : String) : String :=
  ⟨List.replicate (w - s.length) ' ' ++ s.data⟩

/-- Python `str.strip()`: remove leading and trailing whitespace. -/
def pyStrip (s : String) : String :=
  ⟨((s.data.dropWhile Char.isWhitespace).reverse.dropWhile Char.isWhitespace).reverse⟩

/-- Python `str.lower()` (code-point-wise lowering). -/
def pyLower (s : String) : String := ⟨s.data.map Char.toLower⟩

/-- Python `str.endswith(e)`. -/
def strEndsWith (s e : String) : Bool := e.data.isSuffixOf s.data

/-- Python `needle in haystack` substring test. -/
def hasSub : List Char → List Char → Bool
  | [], needle => needle.isEmpty
  | c :: rest, needle => needle.isPrefixOf (c :: rest) || hasSub rest needle

/-- Python `sub in s` on strings. -/
def containsSub (s sub : String) : Bool := hasSub s.data sub.data

/-- Python `str.replace`: replace every (leftmost, non-overlapping)
occurrence of `pat` by `rep`.  `fuel ≥` haystack length makes the fuel case
unreachable. -/
def replaceAllF (pat rep : List Char) : Nat → List Char → List Char
  | 0, l => l
  | _ + 1, [] => []
  | fuel + 1, c :: rest =>
    if pat ≠ [] ∧ pat.isPrefixOf (c :: rest) = true then
      rep ++ replaceAllF pat rep fuel ((c :: rest).drop pat.length)
    else c :: replaceAllF pat rep fuel rest

/-- Python `s.replace(pat, rep)`. -/
def pyReplace (s pat rep : String) : String :=
  ⟨replaceAllF pat.data rep.data s.data.length s.data⟩

/-- Index of the last occurrence of `c` in `l` (Python `str.rfind`, as an
`Option`). -/
def rlastIdx : List Char → Char → Option Nat
  | [], _ => none
  | a :: as, c =>
    match rlastIdx as c with
    | some i => some (i + 1)
    | none => if a = c then some 0 else none

/-- Start index of the basename: one past the last `'/'` (0 when there is
none). -/
def fnameStart (l : List Char) : Nat :=
  match rlastIdx l '/' with
  | none => 0
  | some sIdx => sIdx + 1

/-- Whether the dot at index `d` is a real extension separator: it lies in
the basename and some character of the basename strictly before it is not a
dot (CPython `genericpath._splitext`). -/
def dotOk (l : List Char) (d : Nat) : Bool :=
  decide (fnameStart l ≤ d) &&
    !((l.drop (fnameStart l)).take (d - fnameStart l)).all (fun c => c == '.')

/-- Embedding of `os.path.splitext` (POSIX): split at the final dot, unless
that dot belongs to a run of leading dots of the basename (the part after the
last `'/'`). -/
def splitext (p : String) : String × String :=
  match rlastIdx p.data '.' with
  | none => (p, "")
  | some d =>
    if dotOk p.data d then (⟨p.data.take d⟩, ⟨p.data.drop d⟩) else (p, "")

/-- Render a format spec for an integer field: the decimal subset of
Python's format-spec mini-language (`""`, `"d"`, width, `0`-fill + width).
Anything else is a rendering failure (`none`). -/
def renderIntSpec (spec : List Char) (n : Int) : Option String :=
  match spec with
  | [] => some (pyStr n)
  | c :: rest =>
    if c = 'd' ∧ rest = [] then some (pyStr n)
    else if c = '0' then
      let ds := rest.takeWhile Char.isDigit
      let tail := rest.dropWhile Char.isDigit
      if tail = [] ∨ tail = ['d'] then some (zfill (decToNatL ds) (pyStr n)) else none
    else if c.isDigit then
      let ds := spec.takeWhile Char.isDigit
      let tail := spec.dropWhile Char.isDigit
      if tail = [] ∨ tail = ['d'] then some (spacePad (decToNatL ds) (pyStr n)) else none
    else none

/-- Render one `{...}` replacement field with `n` bound to the integer `n`;
any other field name is a failure (Python `KeyError`/`IndexError`). -/
def renderField (field : List Char) (n : Int) : Option (List Char) :=
  match field with
  | ['n'] => some (pyStr n).data
  | 'n' :: ':' :: spec => (renderIntSpec spec n).map String.data
  | _ => none

/-- Format-string interpreter core (`str.format` with the single named
argument `n`).  `none` is a raised exception.  `fuel >` input length makes
the fuel case unreachable. -/
def pyFormatAux (n : Int) : Nat → List Char → Option (List Char)
  | 0, _ => none
  | _ + 1, [] => some []
  | fuel + 1, c :: rest =>
    if c = '{' then
      match rest with
      | '{' :: rest2 => (pyFormatAux n fuel rest2).map (fun t => '{' :: t)
      | _ =>
        match rest.dropWhile (fun ch => ch != '}') with
        | '}' :: rest2 =>
          match renderField (rest.takeWhile (fun ch => ch != '}')) n, pyFormatAux n fuel rest2 with
          | some v, some t => some (v ++ t)
          | _, _ => none
        | _ => none
    else if c = '}' then
      match rest with
      | '}' :: rest2 => (pyFormatAux n fuel rest2).map (fun t => '}' :: t)
      | _ => none
    else (pyFormatAux n fuel rest).map (fun t => c :: t)

/-- Embedding of `pattern.format(n=n)`; `none` means the call raised. -/
def pyFormat (p : String) (n : Int) : Option String :=
  (pyFormatAux n (p.data.length + 1) p.data).map (fun l => ⟨l⟩)

/-- One element of a `natural_key`: a lowered non-digit run or the value of a
digit run (`rename_images.natural_key` builds such alternating lists via
`re.split(r"(\d+)", s)`). -/
inductive KeyPart where
  | str (s : String)
  | num (n : Nat)
deriving DecidableEq

/-- Split into alternating (possibly empty) non-digit and digit runs, exactly
as `re.split(r"(\d+)", s)` does, lowering non-digit runs and converting digit
runs to integers.  `fuel >` input length makes the fuel case unreachable. -/
def splitRuns : Nat → List Char → List KeyPart
  | 0, _ => []
  | fuel + 1, l =>
    let nd := l.takeWhile (fun c => !c.isDigit)
    match l.dropWhile (fun c => !c.isDigit) with
    | [] => [KeyPart.str ⟨nd.map Char.toLower⟩]
    | rest =>
      KeyPart.str ⟨nd.map Char.toLower⟩ ::
        KeyPart.num (decToNatL (rest.takeWhile Char.isDigit)) ::
        splitRuns fuel (rest.dropWhile Char.isDigit)

/-- Embedding of `natural_key` from `rename_images.py` (and the identical
inline sort key of `gui_rename.add_folder`). -/
def natural_key (s : String) : List KeyPart := splitRuns (s.data.length + 1) s.data

/-- Python `<` on two strings, code-point-lexicographic. -/
def strLtL : List Char → List Char → Bool
  | [], [] => false
  | [], _ :: _ => true
  | _ :: _, [] => false
  | a :: as, b :: bs => if a = b then strLtL as bs else decide (a.val < b.val)

/-- Python `<` on two key parts.  Across one plan, parts at equal positions
always have the same constructor (the runs alternate starting with a string
run), so the cross-constructor cases are unreachable. -/
def partLt : KeyPart → KeyPart → Bool
  | .str a, .str b => strLtL a.data b.data
  | .num a, .num b => decide (a < b)
  | .str _, .num _ => false
  | .num _, .str _ => false

/-- Python `<` on two keys (list lexicographic order). -/
def keyLt : List KeyPart → List KeyPart → Bool
  | [], [] => false
  | [], _ :: _ => true
  | _ :: _, [] => false
  | a :: as, b :: bs => if a = b then keyLt as bs else partLt a b

/-- Insert `x` into `acc` before the first element strictly greater than it;
inserting each element of a list in turn is a stable sort, and Python
`list.sort` is stable. -/
def insBy (lt : α → α → Bool) (x : α) : List α → List α
  | [] => [x]
  | y :: ys => if lt x y then x :: y :: ys else y :: insBy lt x ys

/-- Stable sort by the strict comparison `lt` (insertion sort, equivalent to
Python's stable `list.sort(key=...)`). -/
def sortWith (lt : α → α → Bool) (l : List α) : List α :=
  l.foldl (fun acc x => insBy lt x acc) []

/-- Sort key selector of `find_images` (`--sort name|mtime`). -/
inductive SortKey where
  | name
  | mtime

/-- Embedding of `find_images`: filter the directory listing by extension
(case-insensitive `endswith`), then sort by natural filename order or by
modification time.  `mt` is the filesystem's modification-time map; every
listed name is assumed to denote a regular file (`os.path.isfile`). -/
def find_images (dir : List String) (exts : List String) (sk : SortKey)
    (mt : String → Nat) : List String :=
  let entries := dir.filter (fun nm => exts.any (fun e => strEndsWith (pyLower nm) e))
  match sk with
  | .mtime => sortWith (fun a b => decide (mt a < mt b)) entries
  | .name => sortWith (fun a b => keyLt (natural_key a) (natural_key b)) entries

/-- Probe `base_i ++ ext` for `i = i0, i0+1, ...` and return the first name
absent from the directory (the `while True` loop of `next_free_name`).
`fuel = dir.length + 1` always suffices (see `searchFree_spec` and
`exists_free_suffix`). -/
def searchFree (dir : List String) (base ext : String) : Nat → Nat → Option String
  | 0, _ => none
  | fuel + 1, i =>
    if base ++ "_" ++ natToDec i ++ ext ∈ dir then searchFree dir base ext fuel (i + 1)
    else some (base ++ "_" ++ natToDec i ++ ext)

/-- Embedding of `next_free_name` (identical in `rename_images.py` and
`gui_rename.py`): return `candidate` if its path does not exist, else the
first `stem_i ++ ext` (`i = 1, 2, ...`) whose path does not exist.  The
`none` fallback is unreachable: `dir.length + 1` probes always find a free
name. -/
def next_free_name (dir : List String) (candidate : String) : String :=
  if candidate ∈ dir then
    match searchFree dir (splitext candidate).1 (splitext candidate).2 (dir.length + 1) 1 with
    | some r => r
    | none => candidate
  else candidate

/-- The `i`-th probe name of the collision resolver for `candidate`. -/
def mkSuffixName (candidate : String) (i : Nat) : String :=
  (splitext candidate).1 ++ "_" ++ natToDec i ++ (splitext candidate).2

/-- The extension-completion step shared by both programs: append `ext` when
the rendered name has no extension. -/
def withExt (name ext : String) : String :=
  if (splitext name).2 = "" then name ++ ext else name

/-- Embedding of `gui_rename.render_name`: placeholder dialect first (with
token-replacement fallback on a raised format error), then token dialect,
then `pattern + str(n)`; finally complete the extension. -/
def render_name (pattern : String) (n : Int) (src_ext : String) : String :=
  let name :=
    if containsSub pattern "\x7bn" then
      match pyFormat pattern n with
      | some s => s
      | none => pyReplace pattern "-n" (pyStr n)
    else if containsSub pattern "-n" then pyReplace pattern "-n" (pyStr n)
    else pattern ++ pyStr n
  withExt name src_ext

/-- The `prefix`-composition fallback of `rename_sequence`
(`f"{prefix}{separator}{number}" if prefix else number`). -/
def seqFallback (pfx sep number : String) : String :=
  if pfx = "" then number else pfx ++ sep ++ number

/-- Candidate-destination computation for one file of `rename_sequence`
(lines 78-99): pattern rendering with fallback, extension completion, then
collision resolution against the directory.  `pattern = some ""` is falsy in
Python and falls through to the composition branch. -/
def planName (dir : List String) (pfx sep : String) (padding : Nat)
    (pattern : Option String) (n : Int) (fname : String) : String :=
  let ext := (splitext fname).2
  let number := zfill padding (pyStr n)
  let newname :=
    match pattern with
    | some p =>
      if p = "" then seqFallback pfx sep number ++ ext
      else
        let rendered :=
          match pyFormat p n with
          | some r => r
          | none => seqFallback pfx sep number
        if (splitext rendered).2 = "" then rendered ++ ext else rendered
    | none => seqFallback pfx sep number ++ ext
  next_free_name dir newname

/-- The planning loop of `rename_sequence` over the collected files, with
the running sequence index. -/
def planLoop (dir : List String) (pfx sep : String) (padding : Nat)
    (pattern : Option String) : Int → List String → List (String × String)
  | _, [] => []
  | n, fname :: rest =>
    (fname, planName dir pfx sep padding pattern n fname) ::
      planLoop dir pfx sep padding pattern (n + 1) rest

/-- The rename plan computed by `rename_sequence` (lines 74-103), as ordered
(source basename, destination basename) pairs. -/
def renameSequencePlan (dir : List String) (pfx : String) (start : Int)
    (padding : Nat) (exts : List String) (sk : SortKey) (mt : String → Nat)
    (sep : String) (pattern : Option String) : List (String × String) :=
  planLoop dir pfx sep padding pattern start (find_images dir exts sk mt)

/-- The loop body of `GuiRenamer._build_actions` over the selected files:
pre-padded token substitution when the token dialect applies and padding is
truthy, otherwise `render_name`; then a second extension check and collision
resolution. -/
def guiLoop (dir : List String) (pattern : String) (padding : Nat) :
    Int → List String → List (String × String)
  | _, [] => []
  | n, src :: rest =>
    let ext := (splitext src).2
    let name0 :=
      if containsSub pattern "-n" && (padding != 0) then
        pyReplace pattern "-n" (zfill padding (pyStr n))
      else render_name pattern n ext
    let name1 := if (splitext name0).2 = "" then name0 ++ ext else name0
    (src, next_free_name dir name1) :: guiLoop dir pattern padding (n + 1) rest

/-- Embedding of `GuiRenamer._build_actions`: the GUI strips the pattern
field, then runs the loop above.  `files` are the selected files (basenames
in one directory, the GUI's `self.files`). -/
def gui_build_actions (dir : List String) (files : List String)
    (rawPattern : String) (start : Int) (padding : Nat) : List (String × String) :=
  guiLoop dir (pyStrip rawPattern) padding start files

/-- Effect of a successful `os.rename(src, dst)` on the directory listing. -/
def renameFs (fs : List String) (src dst : String) : List String :=
  fs.erase src ++ [dst]

/-- Trace of the live-mode rename loop of `rename_sequence` (lines 105-111).
`os.rename` is **not** wrapped in `try/except` there, so a failure (the
environment oracle `fail`) propagates: `raised = true` and the remaining
actions are never attempted. -/
structure ExecTrace where
  fsAfter : List String
  attempted : List (String × String)
  raised : Bool
deriving DecidableEq

/-- The live rename loop of `rename_sequence`: stops at the first failing
rename. -/
def execSeqLoop (fail : String → String → Bool) :
    List String → List (String × String) → ExecTrace
  | fs, [] => ⟨fs, [], false⟩
  | fs, (s, d) :: rest =>
    if fail s d then ⟨fs, [(s, d)], true⟩
    else
      let t := execSeqLoop fail (renameFs fs s d) rest
      ⟨t.fsAfter, (s, d) :: t.attempted, t.raised⟩

/-- Trace of a rename loop that catches per-action errors. -/
structure ExecReport where
  fsAfter : List String
  attempted : List (String × String)
  failed : List (String × String)
deriving DecidableEq

/-- The live rename loop of `apply_csv_mapping` (lines 179-188): each
`os.rename` is wrapped in `try/except`, a failure is printed and the loop
continues. -/
def execApplyLoop (fail : String → String → Bool) :
    List String → List (String × String) → ExecReport
  | fs, [] => ⟨fs, [], []⟩
  | fs, (s, d) :: rest =>
    if fail s d then
      let t := execApplyLoop fail fs rest
      ⟨t.fsAfter, (s, d) :: t.attempted, (s, d) :: t.failed⟩
    else
      let t := execApplyLoop fail (renameFs fs s d) rest
      ⟨t.fsAfter, (s, d) :: t.attempted, t.failed⟩

/-- The rename loop of `GuiRenamer.rename` (lines 274-284): each `os.rename`
is wrapped in `try/except`, failures are collected and shown after the
batch. -/
def execGuiLoop (fail : String → String → Bool) :
    List String → List (String × String) → ExecReport
  | fs, [] => ⟨fs, [], []⟩
  | fs, (s, d) :: rest =>
    if fail s d then
      let t := execGuiLoop fail fs rest
      ⟨t.fsAfter, (s, d) :: t.attempted, (s, d) :: t.failed⟩
    else
      let t := execGuiLoop fail (renameFs fs s d) rest
      ⟨t.fsAfter, (s, d) :: t.attempted, t.failed⟩

/-- Observable outcome of one `rename_sequence` invocation. -/
structure SeqRun where
  results : List (String × String)
  fsAfter : List String
  attempted : List (String × String)
  raised : Bool
  csvWritten : Option (String × List (String × String))
deriving DecidableEq

/-- Embedding of one full `rename_sequence` call: build the plan, then
either print it (dry run) or apply it in order (live, uncaught per-item
errors), then — unless an exception propagated — write the mapping CSV when
`map_csv` was supplied (the export is **not** gated on `dry_run`). -/
def renameSequenceRun (dir : List String) (pfx : String) (start : Int)
    (padding : Nat) (exts : List String) (dry_run : Bool) (sk : SortKey)
    (mt : String → Nat) (sep : String) (pattern : Option String)
    (map_csv : Option String) (fail : String → String → Bool) : SeqRun :=
  let results := planLoop dir pfx sep padding pattern start (find_images dir exts sk mt)
  let ex : ExecTrace := if dry_run then ⟨dir, [], false⟩ else execSeqLoop fail dir results
  let csvW := if ex.raised then none else map_csv.map (fun pth => (pth, results))
  ⟨results, ex.fsAfter, ex.attempted, ex.raised, csvW⟩

/-- A parsed mapping CSV: the header row and the data rows, as the `csv`
module hands them to `DictReader` (the text encoding round-trips values
exactly). -/
structure CsvFile where
  header : List String
  rows : List (List String)

/-- `DictReader` field access with `row.get(key) or ''` semantics: missing
column or short row yields `""`. -/
def dictGet (header row : List String) (key : String) : String :=
  match header.findIdx? (fun h => h == key) with
  | some i => (row.get? i).getD ""
  | none => ""

/-- Processing of one mapping row (`apply_csv_mapping` lines 147-177):
strip both fields, skip blank rows, resolve the source exactly then
case-insensitively, complete a missing extension from the source, and
resolve collisions. -/
def applyCsvRow (dir : List String) (rawIn wantIn : String) : Option (String × String) :=
  let raw := pyStrip rawIn
  let want := pyStrip wantIn
  if raw = "" ∨ want = "" then none
  else
    let src? := if raw ∈ dir then some raw
      else dir.find? (fun nm => pyLower nm == pyLower raw)
    match src? with
    | none => none
    | some src =>
      let be := splitext want
      let dst_name := if be.2 = "" then be.1 ++ (splitext src).2 else want
      some (src, next_free_name dir dst_name)

/-- Observable outcome of one `apply_csv_mapping` invocation. -/
structure ApplyRun where
  actions : List (String × String)
  fsAfter : List String
  attempted : List (String × String)
  failed : List (String × String)
  formatError : Bool
deriving DecidableEq

/-- Embedding of `apply_csv_mapping`: reject a header missing `name_raw` or
`name_change` with no actions and no filesystem effect; otherwise build the
action list row by row and execute it (dry run: report only). -/
def apply_csv_mapping_run (dir : List String) (csv : CsvFile) (dry_run : Bool)
    (fail : String → String → Bool) : ApplyRun :=
  if "name_raw" ∈ csv.header ∧ "name_change" ∈ csv.header then
    let actions := csv.rows.filterMap
      (fun row => applyCsvRow dir (dictGet csv.header row "name_raw")
        (dictGet csv.header row "name_change"))
    if dry_run then ⟨actions, dir, [], [], false⟩
    else
      let t := execApplyLoop fail dir actions
      ⟨actions, t.fsAfter, t.attempted, t.failed, false⟩
  else ⟨[], dir, [], [], true⟩

/-- The mapping CSV written for a plan (lines 114-123 of
`rename_sequence`, and `GuiRenamer.export_csv`): fixed header, one row of
basenames per action. -/
def exportCsv (plan : List (String × String)) : CsvFile :=
  ⟨["name_raw", "name_change"], plan.map (fun a => [a.1, a.2])⟩

/-! ### Decimal rendering: correctness and injectivity -/

theorem digitVal_digitChar : ∀ d < 10, digitVal (Nat.digitChar d) = d := by decide

theorem decToNatL_append_digit (l : List Char) (c : Char) :
    decToNatL (l ++ [c]) = decToNatL l * 10 + digitVal c := by
  simp [decToNatL, List.foldl_append]

theorem decDigitsAux_val : ∀ fuel n, n < fuel → decToNatL (decDigitsAux fuel n) = n := by
  intro fuel
  induction fuel with
  | zero => intro n hn; omega
  | succ f ih =>
    intro n hn
    by_cases h10 : n < 10
    · simp [decDigitsAux, h10, decToNatL, digitVal_digitChar n h10]
    · have hdiv : n / 10 < n := Nat.div_lt_self (by omega) (by omega)
      have hmod : n % 10 < 10 := Nat.mod_lt _ (by omega)
      have hdm := Nat.div_add_mod n 10
      simp only [decDigitsAux, h10, if_false]
      rw [decToNatL_append_digit, ih (n / 10) (by omega), digitVal_digitChar _ hmod]
      omega

theorem decToNatL_natToDec (n : Nat) : decToNatL (natToDec n).data = n :=
  decDigitsAux_val (n + 1) n (Nat.lt_succ_self n)

theorem natToDec_inj {m n : Nat} (h : natToDec m = natToDec n) : m = n := by
  have := congrArg (fun s => decToNatL s.data) h
  simpa [decToNatL_natToDec] using this

/-! ### The collision resolver -/

theorem mkSuffixName_inj (cand : String) {i j : Nat}
    (h : mkSuffixName cand i = mkSuffixName cand j) : i = j := by
  have hd := congrArg String.data h
  simp only [mkSuffixName, String.data_append, List.append_assoc] at hd
  have h1 := List.append_cancel_left hd
  have h2 := List.append_cancel_left h1
  have h3 := List.append_cancel_right h2
  exact natToDec_inj (String.ext h3)

theorem exists_free_suffix (dir : List String) (cand : String) :
    ∃ k, k < dir.length + 1 ∧ mkSuffixName cand (1 + k) ∉ dir := by
  by_contra hc
  push_neg at hc
  have hmap : ∀ k ∈ Finset.range (dir.length + 1),
      mkSuffixName cand (1 + k) ∈ dir.toFinset := by
    intro k hk
    exact List.mem_toFinset.mpr (hc k (Finset.mem_range.mp hk))
  have hinj : Set.InjOn (fun k => mkSuffixName cand (1 + k))
      (Finset.range (dir.length + 1)) := by
    intro a _ b _ hab
    have := mkSuffixName_inj cand hab
    omega
  have hcard := Finset.card_le_card_of_injOn _ hmap hinj
  have hlen := List.toFinset_card_le dir
  simp only [Finset.card_range] at hcard
  omega

theorem searchFree_spec (dir : List String) (cand : String) :
    ∀ fuel i0, (∃ k, k < fuel ∧ mkSuffixName cand (i0 + k) ∉ dir) →
      ∃ i, i0 ≤ i ∧
        searchFree dir (splitext cand).1 (splitext cand).2 fuel i0 =
          some (mkSuffixName cand i) ∧
        mkSuffixName cand i ∉ dir ∧
        ∀ j, i0 ≤ j → j < i → mkSuffixName cand j ∈ dir := by
  intro fuel
  induction fuel with
  | zero => intro i0 h; exact absurd h (by simp)
  | succ f ih =>
    intro i0 h
    by_cases hm : mkSuffixName cand i0 ∈ dir
    · obtain ⟨k, hk, hfree⟩ := h
      have hk0 : k ≠ 0 := by
        intro h0
        rw [h0, Nat.add_zero] at hfree
        exact hfree hm
      have hshift : i0 + 1 + (k - 1) = i0 + k := by omega
      obtain ⟨i, hi0, heq, hfree', hleast⟩ :=
        ih (i0 + 1) ⟨k - 1, by omega, by rw [hshift]; exact hfree⟩
      refine ⟨i, by omega, ?_, hfree', ?_⟩
      · simp only [searchFree]
        rw [if_pos (show (splitext cand).1 ++ "_" ++ natToDec i0 ++ (splitext cand).2 ∈ dir from hm)]
        exact heq
      · intro j hj hji
        rcases Nat.eq_or_lt_of_le hj with hje | hjl
        · rw [← hje]; exact hm
        · exact hleast j hjl hji
    · refine ⟨i0, Nat.le_refl i0, ?_, hm, ?_⟩
      · simp only [searchFree]
        rw [if_neg (show ¬ (splitext cand).1 ++ "_" ++ natToDec i0 ++ (splitext cand).2 ∈ dir from hm)]
        rfl
      · intro j hj hji; omega

theorem next_free_name_of_not_mem (dir : List String) (cand : String) (h : cand ∉ dir) :
    next_free_name dir cand = cand := by
  simp [next_free_name, h]

theorem next_free_name_spec_mem (dir : List String) (cand : String) (h : cand ∈ dir) :
    ∃ i, 1 ≤ i ∧ next_free_name dir cand = mkSuffixName cand i ∧
      mkSuffixName cand i ∉ dir ∧ ∀ j, 1 ≤ j → j < i → mkSuffixName cand j ∈ dir := by
  obtain ⟨k, hk, hfree⟩ := exists_free_suffix dir cand
  obtain ⟨i, hi, heq, hfree', hleast⟩ :=
    searchFree_spec dir cand (dir.length + 1) 1 ⟨k, hk, hfree⟩
  refine ⟨i, hi, ?_, hfree', hleast⟩
  simp [next_free_name, h, heq]

theorem next_free_name_not_mem (dir : List String) (cand : String) :
    next_free_name dir cand ∉ dir := by
  by_cases h : cand ∈ dir
  · obtain ⟨i, _, heq, hfree, _⟩ := next_free_name_spec_mem dir cand h
    rw [heq]
    exact hfree
  · rw [next_free_name_of_not_mem dir cand h]
    exact h

theorem next_free_name_idem (dir : List String) (cand : String) :
    next_free_name dir (next_free_name dir cand) = next_free_name dir cand :=
  next_free_name_of_not_mem dir _ (next_free_name_not_mem dir cand)

/-! ### Sorting and collection membership -/

theorem mem_insBy {lt : α → α → Bool} {x a : α} :
    ∀ {l : List α}, a ∈ insBy lt x l → a = x ∨ a ∈ l := by
  intro l
  induction l with
  | nil => intro h; simpa [insBy] using h
  | cons y ys ih =>
    intro h
    simp only [insBy] at h
    by_cases hc : lt x y
    · rw [if_pos hc] at h
      rcases List.mem_cons.mp h with h | h
      · exact Or.inl h
      · exact Or.inr h
    · rw [if_neg hc] at h
      rcases List.mem_cons.mp h with h | h
      · exact Or.inr (List.mem_cons.mpr (Or.inl h))
      · rcases ih h with h | h
        · exact Or.inl h
        · exact Or.inr (List.mem_cons.mpr (Or.inr h))

theorem mem_foldl_insBy {lt : α → α → Bool} {a : α} :
    ∀ (l acc : List α), a ∈ l.foldl (fun acc x => insBy lt x acc) acc →
      a ∈ acc ∨ a ∈ l := by
  intro l
  induction l with
  | nil => intro acc h; exact Or.inl h
  | cons x xs ih =>
    intro acc h
    rcases ih (insBy lt x acc) h with h | h
    · rcases mem_insBy h with h | h
      · exact Or.inr (List.mem_cons.mpr (Or.inl h))
      · exact Or.inl h
    · exact Or.inr (List.mem_cons.mpr (Or.inr h))

theorem mem_sortWith {lt : α → α → Bool} {a : α} {l : List α}
    (h : a ∈ sortWith lt l) : a ∈ l := by
  rcases mem_foldl_insBy l [] h with h | h
  · simp at h
  · exact h

theorem find_images_sub (dir exts : List String) (sk : SortKey) (mt : String → Nat) :
    ∀ a ∈ find_images dir exts sk mt, a ∈ dir := by
  intro a ha
  cases sk <;>
    exact (List.mem_filter.mp (mem_sortWith ha)).1

/-! ### Plan structure -/

theorem planLoop_mem (dir : List String) (pfx sep : String) (padding : Nat)
    (pattern : Option String) :
    ∀ (files : List String) (n : Int) (p : String × String),
      p ∈ planLoop dir pfx sep padding pattern n files →
      p.1 ∈ files ∧ ∃ c, p.2 = next_free_name dir c := by
  intro files
  induction files with
  | nil => intro n p h; simp [planLoop] at h
  | cons f fs ih =>
    intro n p h
    simp only [planLoop, List.mem_cons] at h
    rcases h with h | h
    · subst h
      exact ⟨List.mem_cons.mpr (Or.inl rfl), _, rfl⟩
    · obtain ⟨h1, h2⟩ := ih (n + 1) p h
      exact ⟨List.mem_cons.mpr (Or.inr h1), h2⟩

theorem renameSequencePlan_mem (dir : List String) (pfx : String) (start : Int)
    (padding : Nat) (exts : List String) (sk : SortKey) (mt : String → Nat)
    (sep : String) (pattern : Option String) (p : String × String)
    (h : p ∈ renameSequencePlan dir pfx start padding exts sk mt sep pattern) :
    p.1 ∈ dir ∧ p.2 ∉ dir := by
  obtain ⟨h1, c, h2⟩ := planLoop_mem dir pfx sep padding pattern _ start p h
  refine ⟨find_images_sub dir exts sk mt p.1 h1, ?_⟩
  rw [h2]
  exact next_free_name_not_mem dir c

theorem guiLoop_mem (dir : List String) (pattern : String) (padding : Nat) :
    ∀ (files : List String) (n : Int) (q : String × String),
      q ∈ guiLoop dir pattern padding n files → q.2 ∉ dir := by
  intro files
  induction files with
  | nil => intro n q h; simp [guiLoop] at h
  | cons f fs ih =>
    intro n q h
    simp only [guiLoop, List.mem_cons] at h
    rcases h with h | h
    · subst h
      exact next_free_name_not_mem dir _
    · exact ih (n + 1) q h

/-! ### Executor loops -/

theorem execApplyLoop_attempted (fail : String → String → Bool) :
    ∀ (plan : List (String × String)) (fs : List String),
      (execApplyLoop fail fs plan).attempted = plan := by
  intro plan
  induction plan with
  | nil => intro fs; rfl
  | cons a rest ih =>
    intro fs
    obtain ⟨s, d⟩ := a
    simp only [execApplyLoop]
    split <;> simp [ih]

theorem execGuiLoop_attempted (fail : String → String → Bool) :
    ∀ (plan : List (String × String)) (fs : List String),
      (execGuiLoop fail fs plan).attempted = plan := by
  intro plan
  induction plan with
  | nil => intro fs; rfl
  | cons a rest ih =>
    intro fs
    obtain ⟨s, d⟩ := a
    simp only [execGuiLoop]
    split <;> simp [ih]

/-! ### Width of rendered indices -/

theorem zfill_length (w : Nat) (s : String) : (zfill w s).length = max w s.length := by
  obtain ⟨data⟩ := s
  cases data with
  | nil => simp [zfill, String.length]
  | cons c rest =>
    simp only [zfill, String.length]
    split
    · simp only [List.length_cons, List.length_append, List.length_replicate]
      omega
    · simp only [List.length_cons, List.length_append, List.length_replicate]
      omega

theorem pyStr_ofNat (n : Nat) : pyStr (n : Int) = natToDec n := by
  rw [pyStr, if_neg (by omega : ¬ (n : Int) < 0)]
  simp

theorem digitChar_isDigit : ∀ d < 10, (Nat.digitChar d).isDigit = true := by decide

theorem decDigitsAux_digits :
    ∀ fuel n, ∀ c ∈ decDigitsAux fuel n, c.isDigit = true := by
  intro fuel
  induction fuel with
  | zero => intro n c hc; simp [decDigitsAux] at hc
  | succ f ih =>
    intro n c hc
    by_cases h10 : n < 10
    · simp only [decDigitsAux, h10, if_true, List.mem_singleton] at hc
      rw [hc]
      exact digitChar_isDigit n h10
    · simp only [decDigitsAux, h10, if_false, List.mem_append, List.mem_singleton] at hc
      rcases hc with hc | hc
      · exact ih (n / 10) c hc
      · rw [hc]
        exact digitChar_isDigit _ (Nat.mod_lt _ (by omega))

theorem takeWhile_digits_append (ds : List Char) (h : ∀ c ∈ ds, c.isDigit = true) :
    (ds ++ ['d']).takeWhile Char.isDigit = ds ∧
    (ds ++ ['d']).dropWhile Char.isDigit = ['d'] := by
  have hd : Char.isDigit 'd' = false := by decide
  induction ds with
  | nil => simp [List.takeWhile, List.dropWhile, hd]
  | cons c cs ih =>
    have hc : c.isDigit = true := h c (List.mem_cons.mpr (Or.inl rfl))
    obtain ⟨h1, h2⟩ := ih (fun x hx => h x (List.mem_cons.mpr (Or.inr hx)))
    simp [List.takeWhile, List.dropWhile, hc, h1, h2]

theorem renderIntSpec_zeroPad (w : Nat) (n : Int) :
    renderIntSpec ('0' :: ((natToDec w).data ++ ['d'])) n =
      some (zfill w (pyStr n)) := by
  have hds : ∀ c ∈ (natToDec w).data, c.isDigit = true := decDigitsAux_digits _ _
  obtain ⟨h1, h2⟩ := takeWhile_digits_append _ hds
  simp only [renderIntSpec]
  rw [if_neg (by simp)]
  rw [if_pos trivial]
  rw [h1, h2]
  rw [if_pos (Or.inr rfl)]
  rw [decToNatL_natToDec]

/-! ### The replacement fallback -/

theorem replaceAllF_of_not_hasSub (pat rep : List Char) :
    ∀ (fuel : Nat) (l : List Char), hasSub l pat = false →
      replaceAllF pat rep fuel l = l := by
  intro fuel
  induction fuel with
  | zero => intro l _; rfl
  | succ f ih =>
    intro l h
    cases l with
    | nil => rfl
    | cons c rest =>
      simp only [hasSub, Bool.or_eq_false_iff] at h
      obtain ⟨hp, hrest⟩ := h
      simp only [replaceAllF]
      rw [if_neg (by rintro ⟨-, hcontra⟩; rw [hp] at hcontra; exact Bool.noConfusion hcontra)]
      rw [ih rest hrest]

theorem pyReplace_of_not_contains (s pat rep : String)
    (h : containsSub s pat = false) : pyReplace s pat rep = s := by
  unfold pyReplace
  rw [replaceAllF_of_not_hasSub pat.data rep.data _ _ h]

/-! ### splitext facts -/

theorem rlastIdx_lt {c : Char} :
    ∀ {l : List Char} {i : Nat}, rlastIdx l c = some i → i < l.length := by
  intro l
  induction l with
  | nil => intro i h; simp [rlastIdx] at h
  | cons a as ih =>
    intro i h
    simp only [rlastIdx] at h
    cases hr : rlastIdx as c with
    | some j =>
      rw [hr] at h
      have : j + 1 = i := by injection h
      have := ih hr
      simp only [List.length_cons]
      omega
    | none =>
      rw [hr] at h
      by_cases hac : a = c
      · rw [if_pos hac] at h
        have : (0 : Nat) = i := by injection h
        simp only [List.length_cons]
        omega
      · rw [if_neg hac] at h
        exact absurd h (by simp)

theorem splitext_fst_of_snd_empty {w : String} (h : (splitext w).2 = "") :
    (splitext w).1 = w := by
  unfold splitext at h ⊢
  cases hr : rlastIdx w.data '.' with
  | none => simp
  | some d =>
    rw [hr] at h
    dsimp only at h ⊢
    by_cases hcond : dotOk w.data d
    · rw [if_pos hcond] at h
      have hd := rlastIdx_lt hr
      have hdata := congrArg String.data h
      have hnil : w.data.drop d = [] := by simpa using hdata
      rw [List.drop_eq_nil_iff] at hnil
      omega
    · rw [if_neg hcond]

/-! ### Mapping import/export round trip -/

theorem applyCsvRow_id (dir : List String) (raw want : String)
    (h1 : pyStrip raw = raw) (h2 : raw ≠ "") (h3 : pyStrip want = want)
    (h4 : want ≠ "") (h5 : raw ∈ dir) (h6 : want ∉ dir)
    (h7 : (splitext want).2 = "" → (splitext raw).2 = "") :
    applyCsvRow dir raw want = some (raw, want) := by
  unfold applyCsvRow
  rw [h1, h3]
  rw [if_neg (by simp [h2, h4])]
  rw [if_pos h5]
  dsimp only
  by_cases he : (splitext want).2 = ""
  · rw [if_pos he, splitext_fst_of_snd_empty he, h7 he]
    have happ : want ++ "" = want := by simp
    rw [happ, next_free_name_of_not_mem dir want h6]
  · rw [if_neg he, next_free_name_of_not_mem dir want h6]

theorem dictGet_export_raw (x y : String) :
    dictGet ["name_raw", "name_change"] [x, y] "name_raw" = x := rfl

theorem dictGet_export_change (x y : String) :
    dictGet ["name_raw", "name_change"] [x, y] "name_change" = y := rfl

theorem filterMap_id_of_some {α : Type} {g : α → Option α} :
    ∀ {l : List α}, (∀ a ∈ l, g a = some a) → l.filterMap g = l := by
  intro l
  induction l with
  | nil => intro _; rfl
  | cons a as ih =>
    intro h
    have ha := h a (List.mem_cons.mpr (Or.inl rfl))
    have has := ih fun x hx => h x (List.mem_cons.mpr (Or.inr hx))
    simp [List.filterMap_cons, ha, has]

theorem exportCsv_actions (dir : List String) (plan : List (String × String))
    (fail : String → String → Bool) :
    (apply_csv_mapping_run dir (exportCsv plan) true fail).actions =
      plan.filterMap (fun a => applyCsvRow dir a.1 a.2) := by
  unfold apply_csv_mapping_run exportCsv
  rw [if_pos (by constructor <;> simp)]
  dsimp only
  rw [List.filterMap_map]
  congr 1

theorem apply_run_dry_no_mutation (dir : List String) (csv : CsvFile)
    (fail : String → String → Bool) :
    (apply_csv_mapping_run dir csv true fail).fsAfter = dir ∧
    (apply_csv_mapping_run dir csv true fail).attempted = [] := by
  unfold apply_csv_mapping_run
  split
  · exact ⟨rfl, rfl⟩
  · exact ⟨rfl, rfl⟩

/-! ### Claims -/

/-- Claim C1, counterexample: with directory `a.png, b.png` and pattern
`img` (rendered identically for both files, `img.png` not on disk), the plan
built by `rename_sequence` assigns the destination `img.png` to **both**
actions — the Collision Resolver only probes the disk, so per-plan
destination uniqueness fails. -/
theorem c1_counterexample :
    (renameSequencePlan ["a.png", "b.png"] "" 1 3 [".png"] .name (fun _ => 0) "_"
        (some "img")).map Prod.snd = ["img.png", "img.png"] ∧
    ¬ ((renameSequencePlan ["a.png", "b.png"] "" 1 3 [".png"] .name (fun _ => 0) "_"
        (some "img")).map Prod.snd).Nodup :=
  ⟨by decide, by decide⟩

/-- Claim C1 (amended): the Collision Resolver guarantees only freshness of
each planned destination against the current disk contents — every
destination in a `rename_sequence` or `_build_actions` plan is absent from
the directory listing at planning time — not uniqueness within the plan: two
actions whose pattern renders the same candidate share a destination. -/
theorem c1_amended_destinations_fresh (dir : List String) (pfx : String)
    (start : Int) (padding : Nat) (exts : List String) (sk : SortKey)
    (mt : String → Nat) (sep : String) (pattern : Option String)
    (files : List String) (gpat : String) (gstart : Int) (gpad : Nat)
    (p q : String × String)
    (hp : p ∈ renameSequencePlan dir pfx start padding exts sk mt sep pattern)
    (hq : q ∈ gui_build_actions dir files gpat gstart gpad) :
    p.2 ∉ dir ∧ q.2 ∉ dir :=
  ⟨(renameSequencePlan_mem dir pfx start padding exts sk mt sep pattern p hp).2,
   guiLoop_mem dir (pyStrip gpat) gpad files gstart q hq⟩

/-- Claim C1, witness for the amended theorem at a concrete directory. -/
theorem c1_witness :
    ("a.png", "img.png") ∈ renameSequencePlan ["a.png", "b.png"] "" 1 3 [".png"]
      .name (fun _ => 0) "_" (some "img") ∧
    ("a.png", "img_01.png") ∈ gui_build_actions ["a.png", "b.png"] ["a.png"] "img_-n" 1 2 ∧
    ("a.png", "img.png").2 ∉ ["a.png", "b.png"] ∧
    ("a.png", "img_01.png").2 ∉ ["a.png", "b.png"] := by
  refine ⟨by decide, by decide, ?_, ?_⟩
  · exact (c1_amended_destinations_fresh ["a.png", "b.png"] "" 1 3 [".png"] .name
      (fun _ => 0) "_" (some "img") ["a.png"] "img_-n" 1 2 ("a.png", "img.png")
      ("a.png", "img_01.png") (by decide) (by decide)).1
  · exact (c1_amended_destinations_fresh ["a.png", "b.png"] "" 1 3 [".png"] .name
      (fun _ => 0) "_" (some "img") ["a.png"] "img_-n" 1 2 ("a.png", "img.png")
      ("a.png", "img_01.png") (by decide) (by decide)).2

/-- Claim C2, counterexample: the live rename loop of `rename_sequence`
(lines 105-111) has no `try/except`; when the first of two actions fails,
the loop raises and the second action is never attempted, contradicting
"execution continues to every subsequent action ... for all three execution
paths". -/
theorem c2_counterexample :
    (execSeqLoop (fun s _ => s == "a.png") ["a.png", "b.png"]
        [("a.png", "x.png"), ("b.png", "y.png")]).raised = true ∧
    (execSeqLoop (fun s _ => s == "a.png") ["a.png", "b.png"]
        [("a.png", "x.png"), ("b.png", "y.png")]).attempted = [("a.png", "x.png")] ∧
    ("b.png", "y.png") ∉ (execSeqLoop (fun s _ => s == "a.png") ["a.png", "b.png"]
        [("a.png", "x.png"), ("b.png", "y.png")]).attempted :=
  ⟨by decide, by decide, by decide⟩

/-- Claim C2 (amended): per-item error containment holds for the CLI
mapping-apply loop and the GUI rename handler — whatever the failure
pattern, both attempt every action of the plan — but not for the CLI
sequence-rename loop, where an OS rename failure propagates and aborts the
remaining actions. -/
theorem c2_amended_catching_loops_attempt_all (fail : String → String → Bool)
    (fs : List String) (plan : List (String × String)) :
    (execApplyLoop fail fs plan).attempted = plan ∧
    (execGuiLoop fail fs plan).attempted = plan :=
  ⟨execApplyLoop_attempted fail plan fs, execGuiLoop_attempted fail plan fs⟩

/-- Claim C3, counterexample: on the CLI surface, `rename_sequence` renders
the pattern only through `pattern.format(n=n)`, which leaves the literal
token `-n` untouched; Scenario A's pattern `img_-n` with start 1 and
padding 2 therefore yields `img_-n.png` for both files, not
`img_01.png`/`img_02.png`. -/
theorem c3_counterexample :
    renameSequencePlan ["a.png", "b.png"] "" 1 2 [".png"] .name (fun _ => 0) "_"
        (some "img_-n") = [("a.png", "img_-n.png"), ("b.png", "img_-n.png")] ∧
    renameSequencePlan ["a.png", "b.png"] "" 1 2 [".png"] .name (fun _ => 0) "_"
        (some "img_-n") ≠ [("a.png", "img_01.png"), ("b.png", "img_02.png")] :=
  ⟨by decide, by decide⟩

/-- Claim C3 (amended): Scenario A holds on the GUI surface
(`_build_actions`), which implements the token dialect with zero padding;
the CLI `rename_sequence` does not substitute the literal `-n` token. -/
theorem c3_amended_gui_scenario_a :
    gui_build_actions ["a.png", "b.png"] ["a.png", "b.png"] "img_-n" 1 2
      = [("a.png", "img_01.png"), ("b.png", "img_02.png")] := by decide

/-- Claim C4, counterexample: a dry-run `rename_sequence` invocation with a
mapping-export path still writes the mapping CSV (the export at lines
114-123 is not gated on `dry_run`), so a file **is** created in dry-run
mode. -/
theorem c4_counterexample :
    (renameSequenceRun ["a.png"] "" 1 3 [".png"] true .name (fun _ => 0) "_" none
        (some "m.csv") (fun _ _ => false)).csvWritten
      = some ("m.csv", [("a.png", "001.png")]) ∧
    (renameSequenceRun ["a.png"] "" 1 3 [".png"] true .name (fun _ => 0) "_" none
        (some "m.csv") (fun _ _ => false)).csvWritten ≠ none :=
  ⟨by decide, by decide⟩

/-- Claim C4 (amended): in dry-run mode neither `rename_sequence` nor
`apply_csv_mapping` renames anything (the directory listing is unchanged and
no rename is attempted), but `rename_sequence` still writes the mapping CSV
whenever a mapping-export path is supplied. -/
theorem c4_amended_dry_run_effects (dir : List String) (pfx : String)
    (start : Int) (padding : Nat) (exts : List String) (sk : SortKey)
    (mt : String → Nat) (sep : String) (pattern : Option String)
    (map_csv : Option String) (fail : String → String → Bool)
    (csv : CsvFile) (fail2 : String → String → Bool) :
    (renameSequenceRun dir pfx start padding exts true sk mt sep pattern map_csv fail).fsAfter
        = dir ∧
    (renameSequenceRun dir pfx start padding exts true sk mt sep pattern map_csv fail).attempted
        = [] ∧
    (renameSequenceRun dir pfx start padding exts true sk mt sep pattern map_csv fail).raised
        = false ∧
    (renameSequenceRun dir pfx start padding exts true sk mt sep pattern map_csv fail).csvWritten
        = map_csv.map
            (fun pth => (pth, renameSequencePlan dir pfx start padding exts sk mt sep pattern)) ∧
    (apply_csv_mapping_run dir csv true fail2).fsAfter = dir ∧
    (apply_csv_mapping_run dir csv true fail2).attempted = [] :=
  ⟨rfl, rfl, rfl, rfl, (apply_run_dry_no_mutation dir csv fail2).1,
   (apply_run_dry_no_mutation dir csv fail2).2⟩

/-- Claim C5, counterexample: with token pattern `img_-n`, padding 2 and
index 100, the GUI plan renders `img_100.png` — the index occupies 3 digits,
not exactly the requested 2; zero-fill never truncates. -/
theorem c5_counterexample :
    gui_build_actions ["a.png"] ["a.png"] "img_-n" 100 2 = [("a.png", "img_100.png")] ∧
    (zfill 2 (pyStr 100)).length = 3 ∧
    (zfill 2 (pyStr 100)).length ≠ 2 :=
  ⟨by decide, by decide, by decide⟩

/-- Claim C5 (amended): for every index `n ≥ 0`, the rendered index under
token padding `p` (`str(n).zfill(p)`) and under a `0`-width-`d` placeholder
spec has length exactly `max(width, number of decimal digits of n)` — so
exactly the requested width whenever the decimal form fits, and wider (never
truncated) otherwise. -/
theorem c5_amended_padding_width (n w p : Nat) :
    (zfill p (pyStr (n : Int))).length = max p (natToDec n).length ∧
    renderIntSpec ('0' :: ((natToDec w).data ++ ['d'])) (n : Int)
      = some (zfill w (pyStr (n : Int))) ∧
    (zfill w (pyStr (n : Int))).length = max w (natToDec n).length := by
  have hps := pyStr_ofNat n
  refine ⟨?_, renderIntSpec_zeroPad w (n : Int), ?_⟩
  · rw [hps]
    exact zfill_length p _
  · rw [hps]
    exact zfill_length w _

/-- Claim C6, counterexample: for the pattern `{n:zq}` (contains `{n`,
raises on substitution, contains no `-n`), `render_name` returns the pattern
unchanged (plus the appended extension), **not** `pattern + index`: the
final `pattern + index` fallback applies only when the pattern contains
neither `{n` nor `-n`. -/
theorem c6_counterexample :
    render_name "\x7bn:zq\x7d" 1 ".png" = "\x7bn:zq\x7d.png" ∧
    "\x7bn:zq\x7d.png" ≠ "\x7bn:zq\x7d" ++ pyStr 1 ++ ".png" :=
  ⟨by decide, by decide⟩

/-- Claim C6 (amended): when a pattern containing `{n` fails to render, the
result is the token-dialect replacement of the pattern (every `-n` replaced
by the decimal index, then extension completion); if the failing pattern
contains no `-n` either, that replacement leaves the pattern unchanged — the
`pattern + index` fallback is never reached from the placeholder branch.
The rendering error is swallowed in all cases. -/
theorem c6_amended_format_fallback (p : String) (n : Int) (ext : String)
    (hfmt : containsSub p "\x7bn" = true) (hfail : pyFormat p n = none) :
    render_name p n ext = withExt (pyReplace p "-n" (pyStr n)) ext ∧
    (containsSub p "-n" = false → render_name p n ext = withExt p ext) := by
  have h1 : render_name p n ext = withExt (pyReplace p "-n" (pyStr n)) ext := by
    unfold render_name
    rw [if_pos hfmt, hfail]
  refine ⟨h1, fun hno => ?_⟩
  rw [h1, pyReplace_of_not_contains p "-n" (pyStr n) hno]

/-- Claim C6, witness for the amended theorem at a concrete failing
pattern. -/
theorem c6_witness :
    containsSub "\x7bn:zz\x7d" "\x7bn" = true ∧
    pyFormat "\x7bn:zz\x7d" 1 = none ∧
    (render_name "\x7bn:zz\x7d" 1 ".png"
        = withExt (pyReplace "\x7bn:zz\x7d" "-n" (pyStr 1)) ".png" ∧
      (containsSub "\x7bn:zz\x7d" "-n" = false →
        render_name "\x7bn:zz\x7d" 1 ".png" = withExt "\x7bn:zz\x7d" ".png")) :=
  ⟨by decide, by decide,
   c6_amended_format_fallback "\x7bn:zz\x7d" 1 ".png" (by decide) (by decide)⟩

/-- Claim C7 (confirmed): `next_free_name` returns the candidate unchanged
when its path does not exist; otherwise it returns `stem_i ++ ext` for the
least `i ≥ 1` whose path does not exist (every smaller suffix ≥ 1 is
occupied, the result is free); and it is idempotent. -/
theorem c7_next_free_name_contract (dir : List String) (cand : String) :
    (cand ∉ dir → next_free_name dir cand = cand) ∧
    (cand ∈ dir → ∃ i, 1 ≤ i ∧ next_free_name dir cand = mkSuffixName cand i ∧
      mkSuffixName cand i ∉ dir ∧ ∀ j, 1 ≤ j → j < i → mkSuffixName cand j ∈ dir) ∧
    next_free_name dir (next_free_name dir cand) = next_free_name dir cand :=
  ⟨next_free_name_of_not_mem dir cand, next_free_name_spec_mem dir cand,
   next_free_name_idem dir cand⟩

/-- Claim C7, witness: Scenario C — `out.png` and `out_1.png` occupied, the
resolver yields the least free suffix. -/
theorem c7_witness :
    ("out.png" ∈ ["out.png", "out_1.png"]) ∧
    (∃ i, 1 ≤ i ∧
      next_free_name ["out.png", "out_1.png"] "out.png" = mkSuffixName "out.png" i ∧
      mkSuffixName "out.png" i ∉ ["out.png", "out_1.png"] ∧
      ∀ j, 1 ≤ j → j < i → mkSuffixName "out.png" j ∈ ["out.png", "out_1.png"]) :=
  ⟨by decide,
   (c7_next_free_name_contract ["out.png", "out_1.png"] "out.png").2.1 (by decide)⟩

/-- Claim C8, counterexample: for the directory containing the single file
`" a.png"` (leading space), the dry-run plan maps it to `img.png`, but
importing the exported mapping strips the stored basename to `a.png`, finds
no (exact or case-insensitive) match, skips the row, and reproduces the
empty action list instead of the plan. -/
theorem c8_counterexample :
    renameSequencePlan [" a.png"] "" 1 2 [".png"] .name (fun _ => 0) "_" (some "img")
      = [(" a.png", "img.png")] ∧
    (apply_csv_mapping_run [" a.png"]
        (exportCsv (renameSequencePlan [" a.png"] "" 1 2 [".png"] .name (fun _ => 0) "_"
          (some "img")))
        true (fun _ _ => false)).actions = [] ∧
    ([] : List (String × String)) ≠ [(" a.png", "img.png")] :=
  ⟨by decide, by decide, by decide⟩

/-- Claim C8 (amended): exporting a dry-run plan and importing it against
the unchanged directory reproduces the same ordered sequence of (source
basename, destination basename) pairs, provided each planned basename
survives whitespace stripping, is nonempty, and a destination without an
extension only arises from a source without one (the import would otherwise
strip, skip, or re-extend a name). -/
theorem c8_amended_round_trip (dir : List String) (pfx : String) (start : Int)
    (padding : Nat) (exts : List String) (sk : SortKey) (mt : String → Nat)
    (sep : String) (pattern : Option String) (fail : String → String → Bool)
    (hok : ∀ a ∈ renameSequencePlan dir pfx start padding exts sk mt sep pattern,
      pyStrip a.1 = a.1 ∧ a.1 ≠ "" ∧ pyStrip a.2 = a.2 ∧ a.2 ≠ "" ∧
      ((splitext a.2).2 = "" → (splitext a.1).2 = "")) :
    (apply_csv_mapping_run dir
        (exportCsv (renameSequencePlan dir pfx start padding exts sk mt sep pattern))
        true fail).actions
      = renameSequencePlan dir pfx start padding exts sk mt sep pattern := by
  rw [exportCsv_actions]
  apply filterMap_id_of_some
  intro a ha
  obtain ⟨hs1, hs2, hs3, hs4, hs5⟩ := hok a ha
  obtain ⟨hmem, hnot⟩ :=
    renameSequencePlan_mem dir pfx start padding exts sk mt sep pattern a ha
  rw [applyCsvRow_id dir a.1 a.2 hs1 hs2 hs3 hs4 hmem hnot hs5]

/-- Claim C8, witness for the amended round trip at a concrete plan. -/
theorem c8_witness :
    (∀ a ∈ renameSequencePlan ["a.png", "b.png"] "img" 1 2 [".png"] .name (fun _ => 0)
        "_" none,
      pyStrip a.1 = a.1 ∧ a.1 ≠ "" ∧ pyStrip a.2 = a.2 ∧ a.2 ≠ "" ∧
      ((splitext a.2).2 = "" → (splitext a.1).2 = "")) ∧
    (apply_csv_mapping_run ["a.png", "b.png"]
        (exportCsv (renameSequencePlan ["a.png", "b.png"] "img" 1 2 [".png"] .name
          (fun _ => 0) "_" none))
        true (fun _ _ => false)).actions
      = renameSequencePlan ["a.png", "b.png"] "img" 1 2 [".png"] .name (fun _ => 0)
          "_" none :=
  ⟨by decide,
   c8_amended_round_trip ["a.png", "b.png"] "img" 1 2 [".png"] .name (fun _ => 0) "_"
     none (fun _ _ => false) (by decide)⟩

/-- Claim C9 (confirmed): when the mapping CSV header lacks `name_raw` or
`name_change`, `apply_csv_mapping` reports a format error, produces zero
actions, and performs no filesystem mutation (listing unchanged, no rename
attempted), in dry-run and live mode alike. -/
theorem c9_malformed_header (dir : List String) (csv : CsvFile) (dry_run : Bool)
    (fail : String → String → Bool)
    (h : ¬ ("name_raw" ∈ csv.header ∧ "name_change" ∈ csv.header)) :
    (apply_csv_mapping_run dir csv dry_run fail).actions = [] ∧
    (apply_csv_mapping_run dir csv dry_run fail).fsAfter = dir ∧
    (apply_csv_mapping_run dir csv dry_run fail).attempted = [] ∧
    (apply_csv_mapping_run dir csv dry_run fail).formatError = true := by
  unfold apply_csv_mapping_run
  rw [if_neg h]
  exact ⟨rfl, rfl, rfl, rfl⟩

/-- Claim C9, witness: a header with `name_raw` but without `name_change`,
in live mode. -/
theorem c9_witness :
    ¬ ("name_raw" ∈ (["name_raw", "other"] : List String) ∧
        "name_change" ∈ (["name_raw", "other"] : List String)) ∧
    ((apply_csv_mapping_run ["a.png"] ⟨["name_raw", "other"], [["a.png", "b.png"]]⟩
        false (fun _ _ => false)).actions = [] ∧
      (apply_csv_mapping_run ["a.png"] ⟨["name_raw", "other"], [["a.png", "b.png"]]⟩
        false (fun _ _ => false)).fsAfter = ["a.png"] ∧
      (apply_csv_mapping_run ["a.png"] ⟨["name_raw", "other"], [["a.png", "b.png"]]⟩
        false (fun _ _ => false)).attempted = [] ∧
      (apply_csv_mapping_run ["a.png"] ⟨["name_raw", "other"], [["a.png", "b.png"]]⟩
        false (fun _ _ => false)).formatError = true) :=
  ⟨by decide,
   c9_malformed_header ["a.png"] ⟨["name_raw", "other"], [["a.png", "b.png"]]⟩ false
     (fun _ _ => false) (by decide)⟩

/-- Claim C10 (confirmed): the plan computed by `rename_sequence` — its
`results` list of (source, destination) pairs — is identical with the
dry-run flag set or cleared, for any directory contents, parameters and
environment failure pattern: the flag only selects whether the planned
renames are applied after the plan is complete. -/
theorem c10_plan_independent_of_dry_run (dir : List String) (pfx : String)
    (start : Int) (padding : Nat) (exts : List String) (sk : SortKey)
    (mt : String → Nat) (sep : String) (pattern : Option String)
    (map_csv : Option String) (fail : String → String → Bool) :
    (renameSequenceRun dir pfx start padding exts true sk mt sep pattern map_csv fail).results
      = (renameSequenceRun dir pfx start padding exts false sk mt sep pattern map_csv fail).results :=
  rfl

end FileRenamer
